import Mathlib

/-!
Verification of the emergent-communication RL training loops in this
repository (`networks.py`, `rl/agents.py`).

The embedding is shallow: the two near-duplicate agent classes
(`IndependentFullyConnectedAgents` in `networks.py` and `BaseAgents` in
`rl/agents.py`) become explicit state-passing functions over a `FitState`
(resp. `State`) record.  External collaborators are modelled as function
parameters:

* the keras speaker model's `predict` becomes `model : ℕ → Input → Probs`,
  a probability vector indexed by an abstract weight-version number
  (`train_on_batch` bumps the version);
* `np.random.choice(alphabet_size, 1, p=...)` becomes an oracle
  `rng : ℕ → ℕ` giving the symbol drawn at each loop iteration (the
  library contract that the draw lies in `[0, alphabet_size)` is taken as
  a hypothesis where needed);
* `np.random.randint(len(candidates))` becomes an oracle draw reduced
  modulo `len(candidates)`.

Messages are modelled as the list of drawn symbols (the source renders
them as a `"#"`-separated string).  Probabilities are rationals.  Ghost
fields `train_calls` and `events` record, per `fit`/`predict` run, how
often `train_on_batch` was invoked and which external policy operations
were called; they affect nothing else.
-/

/-- A target-input feature vector (opaque numeric contents). -/
abbrev Input := List ℚ

/-- A probability vector as returned by a policy network. -/
abbrev Probs := List ℚ

/-- Ghost trace of calls into the external policy networks. -/
inductive Event where
  | sampleSpeaker
  | inferSpeaker
  | sampleListener
  | inferListener
  | listenerPolicy
  | trainSpeaker
  | trainListener
deriving DecidableEq, Repr

/-- `probs / np.sum(probs)` — element-wise division by the sum
(`networks.py` lines 67, 149, 179). -/
def normalized_probs (probs : Probs) : Probs :=
  probs.map (fun p => p / probs.sum)

/-- `np.argsort`: the indices that sort the vector ascending.  Modelled
with a stable insertion sort over `range`. -/
def argsort (xs : List ℚ) : List ℕ :=
  List.insertionSort (fun i j => xs.getD i 0 ≤ xs.getD j 0) (List.range xs.length)

/-- Python list slice `xs[-L:]`: the last `L` elements, except that
`L = 0` gives the whole list (since `xs[-0:] = xs[0:]`). -/
def pySliceLast (xs : List α) (L : ℕ) : List α :=
  if L = 0 then xs else xs.drop (xs.length - L)

/-- The configuration keys the training loops read
(`initialize_parameters`; the remaining keys only parameterize the
external networks). -/
structure Config where
  max_message_length : ℕ
  alphabet_size : ℕ
  batch_size : ℕ
deriving DecidableEq, Repr

namespace IndependentFullyConnectedAgents

/-- One element of `train_data` / `test_data`:
`(target_input, candidates, target_candidate_idx)`. -/
structure TrainExample where
  target_input : Input
  candidates : List Input
  target_candidate_idx : ℕ
deriving DecidableEq

/-- One record of `training_stats` / `testing_stats`
(`networks.py` lines 230-235 and 256-261). -/
structure Stat where
  reward : ℕ
  input : Input
  message : List ℕ
  chosen_target : Input
deriving DecidableEq

/-- `IndependentFullyConnectedAgents.__init__`: configuration, the two
stats flags, and the speaker model (as an external function of the
weight version and the input). -/
structure Agent where
  cfg : Config
  save_training_stats : Bool
  save_testing_stats : Bool
  model : ℕ → Input → Probs

/-- `sample_speaker_policy_for_message` (`networks.py` lines 146-159):
renormalize the model output, then draw `max_message_length` symbols via
the `rng` oracle (one `np.random.choice` per loop iteration), returning
the message and the renormalized probability of each drawn symbol. -/
def sample_speaker_policy_for_message (cfg : Config) (model : Input → Probs)
    (rng : ℕ → ℕ) (target_input : Input) : List ℕ × Probs :=
  let normalized := normalized_probs (model target_input)
  let message := (List.range cfg.max_message_length).map rng
  (message, message.map (fun s => normalized.getD s 0))

/-- `infer_from_speaker_policy` (`networks.py` lines 175-187): renormalize
the model output, take `argsort()[-max_message_length:][::-1]` as the
greedy message, with the corresponding renormalized probabilities. -/
def infer_from_speaker_policy (cfg : Config) (model : Input → Probs)
    (target_input : Input) : List ℕ × Probs :=
  let normalized := normalized_probs (model target_input)
  let argmax_indices := (pySliceLast (argsort normalized) cfg.max_message_length).reverse
  (argmax_indices, argmax_indices.map (fun i => normalized.getD i 0))

/-- `listener_policy` (`networks.py` lines 189-191):
`np.random.randint(len(candidates))`, the oracle draw `r` reduced into
range; the message argument is unused by the source body. -/
def listener_policy (message : List ℕ) (r : ℕ) (candidates : List Input) : ℕ :=
  r % candidates.length

/-- `calculate_reward` (`networks.py` lines 193-198): 1 if the chosen
index equals the ground-truth index, else 0. -/
def calculate_reward (chosen_target_idx target_candidate_idx : ℕ) : ℕ :=
  if chosen_target_idx = target_candidate_idx then 1 else 0

/-- The mutable state of one `fit` run: the instance field
`training_stats`, the loop locals of `fit` (`networks.py` lines 206-240),
the abstract weight version, and the ghost instrumentation. -/
structure FitState where
  params : ℕ
  training_stats : List Stat
  message_probs_storage : List Probs
  rewards_storage : List ℕ
  total_reward : ℕ
  batch_counter : ℕ
  batch_training_inputs : List Input
  train_calls : ℕ
  events : List Event
deriving DecidableEq

/-- The loop body of `fit` for one `(index, example)` pair: sample a
message, choose a listener target, compute the reward, accumulate the
batch and statistics, and on `batch_counter == batch_size` call
`train_speaker_policy_on_batch` (modelled as a weight-version bump) and
clear the accumulator. -/
def fitStep (a : Agent) (srng : ℕ → ℕ → ℕ) (lrng : ℕ → ℕ)
    (s : FitState) (kex : ℕ × TrainExample) : FitState :=
  let mp := sample_speaker_policy_for_message a.cfg (a.model s.params)
    (srng kex.1) kex.2.target_input
  let chosen_target_idx := listener_policy mp.1 (lrng kex.1) kex.2.candidates
  let reward := calculate_reward chosen_target_idx kex.2.target_candidate_idx
  let s1 : FitState :=
    { s with
      total_reward := s.total_reward + reward
      batch_counter := s.batch_counter + 1
      batch_training_inputs := s.batch_training_inputs ++ [kex.2.target_input]
      rewards_storage := s.rewards_storage ++ [reward]
      message_probs_storage := s.message_probs_storage ++ [mp.2]
      training_stats :=
        if a.save_training_stats then
          s.training_stats ++
            [⟨reward, kex.2.target_input, mp.1, kex.2.candidates.getD chosen_target_idx []⟩]
        else s.training_stats
      events := s.events ++ [Event.sampleSpeaker, Event.listenerPolicy] }
  if s1.batch_counter = a.cfg.batch_size then
    { s1 with
      params := s1.params + 1
      batch_counter := 0
      batch_training_inputs := []
      message_probs_storage := []
      rewards_storage := []
      train_calls := s1.train_calls + 1
      events := s1.events ++ [Event.trainSpeaker] }
  else s1

/-- The state at the top of `fit`: `training_stats = []`, empty
accumulators, zero counters, current weight version `p0`. -/
def initFitState (p0 : ℕ) : FitState :=
  ⟨p0, [], [], [], 0, 0, [], 0, []⟩

/-- `fit` (`networks.py` lines 206-240): fold the loop body over the
enumerated training data. -/
def fit (a : Agent) (srng : ℕ → ℕ → ℕ) (lrng : ℕ → ℕ) (p0 : ℕ)
    (train_data : List TrainExample) : FitState :=
  train_data.enum.foldl (fitStep a srng lrng) (initFitState p0)

/-- The mutable state of one `predict` run (`networks.py` lines 242-261):
testing statistics, the untouched training statistics and weight version
carried along, and the ghost event trace. -/
structure PredictState where
  params : ℕ
  training_stats : List Stat
  testing_stats : List Stat
  total_reward : ℕ
  events : List Event
deriving DecidableEq

/-- The loop body of `predict`: greedy inference, listener draw, reward,
and a testing-stats record — guarded, as in the source, by
`save_training_stats` (line 255), not `save_testing_stats`. -/
def predictStep (a : Agent) (lrng : ℕ → ℕ)
    (s : PredictState) (kex : ℕ × TrainExample) : PredictState :=
  let mp := infer_from_speaker_policy a.cfg (a.model s.params) kex.2.target_input
  let chosen_target_idx := listener_policy mp.1 (lrng kex.1) kex.2.candidates
  let reward := calculate_reward chosen_target_idx kex.2.target_candidate_idx
  { s with
    total_reward := s.total_reward + reward
    testing_stats :=
      if a.save_training_stats then
        s.testing_stats ++
          [⟨reward, kex.2.target_input, mp.1, kex.2.candidates.getD chosen_target_idx []⟩]
      else s.testing_stats
    events := s.events ++ [Event.inferSpeaker, Event.listenerPolicy] }

/-- `predict` (`networks.py` lines 242-261): reset `testing_stats` and
fold the loop body over the enumerated test data. -/
def predict (a : Agent) (lrng : ℕ → ℕ) (p0 : ℕ) (training_stats : List Stat)
    (test_data : List TrainExample) : PredictState :=
  test_data.enum.foldl (predictStep a lrng) ⟨p0, training_stats, [], 0, []⟩

end IndependentFullyConnectedAgents

namespace SpeakerPolicy

/-- `SpeakerPolicy.sample_speaker_policy` (`networks.py` lines 63-77):
textually the same sampling loop as
`IndependentFullyConnectedAgents.sample_speaker_policy_for_message`. -/
def sample_speaker_policy (cfg : Config) (model : Input → Probs)
    (rng : ℕ → ℕ) (target_input : Input) : List ℕ × Probs :=
  let normalized := normalized_probs (model target_input)
  let message := (List.range cfg.max_message_length).map rng
  (message, message.map (fun s => normalized.getD s 0))

end SpeakerPolicy

namespace BaseAgents

/-- One element of `train_data` / `test_data` in the `rl/agents.py`
variant: the ground truth is a one-hot vector, not a bare index. -/
structure OneHotExample where
  target_input : Input
  candidates : List Input
  target_candidate_idx : List ℚ
deriving DecidableEq

/-- One record of `training_stats` / `testing_stats`
(`rl/agents.py` lines 68-73 and 104-109). -/
structure Stat where
  reward : ℕ
  input : Input
  message : List ℕ
  chosen_target_idx : ℕ
deriving DecidableEq

/-- `BaseAgents.__init__`: configuration, stats flags, and the two
policy-network collaborators as external functions of the weight
version.  The speaker returns a message with per-symbol probabilities;
the listener returns a chosen candidate index (with probabilities on the
sampling path). -/
structure Agent where
  cfg : Config
  save_training_stats : Bool
  save_testing_stats : Bool
  speaker_sample : ℕ → Input → List ℕ × Probs
  speaker_infer : ℕ → Input → List ℕ × Probs
  listener_sample : ℕ → List ℕ → List Input → ℕ × Probs
  listener_infer : ℕ → List ℕ → List Input → ℕ

/-- `BaseAgents.calculate_reward` (`rl/agents.py` lines 46-51): 1 if the
one-hot ground-truth vector holds 1 at the chosen index, else 0. -/
def calculate_reward (chosen_target_idx : ℕ) (target_candidate_idx : List ℚ) : ℕ :=
  if target_candidate_idx.getD chosen_target_idx 0 = 1 then 1 else 0

/-- The instance state the `BaseAgents` loops read and write, plus the
ghost instrumentation (`train_calls`, `events`). -/
structure State where
  speaker_params : ℕ
  listener_params : ℕ
  total_training_reward : ℕ
  batch_counter : ℕ
  training_stats : List Stat
  testing_stats : List Stat
  train_calls : ℕ
  events : List Event
deriving DecidableEq

/-- The state of a freshly constructed instance: empty statistics, zero
counters, current weight versions. -/
def initState (ps pl : ℕ) : State :=
  ⟨ps, pl, 0, 0, [], [], 0, []⟩

/-- `sample_from_networks_on_batch` (`rl/agents.py` lines 53-73): sample
from both policies, compute the reward, increment the running reward and
the batch counter, and record a training-statistics entry when enabled
(the `remember_*` calls feed the external policies' own memory). -/
def sample_from_networks_on_batch (a : Agent) (s : State) (ex : OneHotExample) : State :=
  let sm := a.speaker_sample s.speaker_params ex.target_input
  let la := a.listener_sample s.listener_params sm.1 ex.candidates
  let reward := calculate_reward la.1 ex.target_candidate_idx
  { s with
    total_training_reward := s.total_training_reward + reward
    batch_counter := s.batch_counter + 1
    training_stats :=
      if a.save_training_stats then
        s.training_stats ++ [⟨reward, ex.target_input, sm.1, la.1⟩]
      else s.training_stats
    events := s.events ++ [Event.sampleSpeaker, Event.sampleListener] }

/-- `train_networks_on_batch` (`rl/agents.py` lines 75-82): train both
policies on their remembered batch (modelled as weight-version bumps)
and reset the batch counter to zero. -/
def train_networks_on_batch (a : Agent) (s : State) : State :=
  { s with
    speaker_params := s.speaker_params + 1
    listener_params := s.listener_params + 1
    batch_counter := 0
    train_calls := s.train_calls + 1
    events := s.events ++ [Event.trainSpeaker, Event.trainListener] }

/-- The loop body of `BaseAgents.fit`: one episode, then a training step
when `batch_counter == batch_size`. -/
def fitStep (a : Agent) (s : State) (ex : OneHotExample) : State :=
  let s1 := sample_from_networks_on_batch a s ex
  if s1.batch_counter = a.cfg.batch_size then train_networks_on_batch a s1 else s1

/-- `BaseAgents.fit` (`rl/agents.py` lines 84-91): reset the running
reward and batch counter, then fold the loop body over the training
data.  The ghost `train_calls`/`events` fields are reset so that they
count this run only. -/
def fit (a : Agent) (s0 : State) (train_data : List OneHotExample) : State :=
  train_data.foldl (fitStep a)
    { s0 with total_training_reward := 0, batch_counter := 0, train_calls := 0, events := [] }

/-- The loop body of `BaseAgents.predict` (`rl/agents.py` lines 97-109):
greedy inference through both policies, reward, and a testing-statistics
entry guarded by `save_testing_stats`. -/
def predictStep (a : Agent) (s : State) (ex : OneHotExample) : State :=
  let mi := a.speaker_infer s.speaker_params ex.target_input
  let chosen_target_idx := a.listener_infer s.listener_params mi.1 ex.candidates
  let reward := calculate_reward chosen_target_idx ex.target_candidate_idx
  { s with
    testing_stats :=
      if a.save_testing_stats then
        s.testing_stats ++ [⟨reward, ex.target_input, mi.1, chosen_target_idx⟩]
      else s.testing_stats
    events := s.events ++ [Event.inferSpeaker, Event.inferListener] }

/-- `BaseAgents.predict` (`rl/agents.py` lines 93-109): reset
`testing_stats` (and the ghost event trace for this run) and fold the
loop body over the test data. -/
def predict (a : Agent) (s0 : State) (test_data : List OneHotExample) : State :=
  test_data.foldl (predictStep a) { s0 with testing_stats := [], events := [] }

end BaseAgents

/-! Helper lemmas about the `IndependentFullyConnectedAgents` loops. -/

namespace IndependentFullyConnectedAgents

/-- Batch bookkeeping of the `fit` fold: starting below `batch_size` with
accumulator lengths matching the counter, the final counter is the
processed count modulo `batch_size`, the number of training calls is the
processed count divided by `batch_size`, and the accumulator lengths
still match the counter. -/
lemma fit_foldl_batch (a : Agent) (srng : ℕ → ℕ → ℕ) (lrng : ℕ → ℕ)
    (l : List (ℕ × TrainExample)) :
    ∀ s : FitState, 0 < a.cfg.batch_size → s.batch_counter < a.cfg.batch_size →
      s.batch_training_inputs.length = s.batch_counter →
      s.message_probs_storage.length = s.batch_counter →
      s.rewards_storage.length = s.batch_counter →
      (l.foldl (fitStep a srng lrng) s).batch_counter
          = (s.batch_counter + l.length) % a.cfg.batch_size ∧
      (l.foldl (fitStep a srng lrng) s).train_calls
          = s.train_calls + (s.batch_counter + l.length) / a.cfg.batch_size ∧
      (l.foldl (fitStep a srng lrng) s).batch_training_inputs.length
          = (l.foldl (fitStep a srng lrng) s).batch_counter ∧
      (l.foldl (fitStep a srng lrng) s).message_probs_storage.length
          = (l.foldl (fitStep a srng lrng) s).batch_counter ∧
      (l.foldl (fitStep a srng lrng) s).rewards_storage.length
          = (l.foldl (fitStep a srng lrng) s).batch_counter := by
  induction l with
  | nil =>
    intro s hB hc h1 h2 h3
    simp [Nat.mod_eq_of_lt hc, Nat.div_eq_of_lt hc, h1, h2, h3]
  | cons ke l ih =>
    intro s hB hc h1 h2 h3
    simp only [List.foldl_cons, List.length_cons]
    by_cases htrig : s.batch_counter + 1 = a.cfg.batch_size
    · have hc0 : (fitStep a srng lrng s ke).batch_counter = 0 := by
        simp [fitStep, htrig]
      have ht0 : (fitStep a srng lrng s ke).train_calls = s.train_calls + 1 := by
        simp [fitStep, htrig]
      have hl1 : (fitStep a srng lrng s ke).batch_training_inputs.length = 0 := by
        simp [fitStep, htrig]
      have hl2 : (fitStep a srng lrng s ke).message_probs_storage.length = 0 := by
        simp [fitStep, htrig]
      have hl3 : (fitStep a srng lrng s ke).rewards_storage.length = 0 := by
        simp [fitStep, htrig]
      obtain ⟨ic, it, i1, i2, i3⟩ := ih (fitStep a srng lrng s ke) hB
        (by rw [hc0]; exact hB) (by rw [hl1, hc0]) (by rw [hl2, hc0]) (by rw [hl3, hc0])
      have e1 : s.batch_counter + (l.length + 1) = l.length + a.cfg.batch_size := by omega
      rw [e1, Nat.add_mod_right, Nat.add_div_right _ hB]
      refine ⟨?_, ?_, i1, i2, i3⟩
      · rw [ic, hc0, Nat.zero_add]
      · rw [it, ht0, hc0, Nat.zero_add]; omega
    · have hlt : s.batch_counter + 1 < a.cfg.batch_size := by omega
      have hc0 : (fitStep a srng lrng s ke).batch_counter = s.batch_counter + 1 := by
        simp [fitStep, htrig]
      have ht0 : (fitStep a srng lrng s ke).train_calls = s.train_calls := by
        simp [fitStep, htrig]
      have hl1 : (fitStep a srng lrng s ke).batch_training_inputs.length
          = s.batch_counter + 1 := by
        simp [fitStep, htrig, h1]
      have hl2 : (fitStep a srng lrng s ke).message_probs_storage.length
          = s.batch_counter + 1 := by
        simp [fitStep, htrig, h2]
      have hl3 : (fitStep a srng lrng s ke).rewards_storage.length
          = s.batch_counter + 1 := by
        simp [fitStep, htrig, h3]
      obtain ⟨ic, it, i1, i2, i3⟩ := ih (fitStep a srng lrng s ke) hB
        (by rw [hc0]; exact hlt) (by rw [hl1, hc0]) (by rw [hl2, hc0]) (by rw [hl3, hc0])
      have e2 : s.batch_counter + (l.length + 1) = s.batch_counter + 1 + l.length := by omega
      rw [hc0] at ic
      rw [ht0, hc0] at it
      rw [e2]
      exact ⟨ic, it, i1, i2, i3⟩

/-- The `fit` fold appends one training-stats record per example when
`save_training_stats` is set and none otherwise. -/
lemma fit_foldl_stats (a : Agent) (srng : ℕ → ℕ → ℕ) (lrng : ℕ → ℕ)
    (l : List (ℕ × TrainExample)) :
    ∀ s : FitState,
      (l.foldl (fitStep a srng lrng) s).training_stats.length
        = s.training_stats.length + (if a.save_training_stats then l.length else 0) := by
  induction l with
  | nil => intro s; simp
  | cons ke l ih =>
    intro s
    simp only [List.foldl_cons, List.length_cons]
    rw [ih]
    have hstep : (fitStep a srng lrng s ke).training_stats.length
        = s.training_stats.length + (if a.save_training_stats then 1 else 0) := by
      by_cases htrig : s.batch_counter + 1 = a.cfg.batch_size <;>
        by_cases hsv : a.save_training_stats <;> simp [fitStep, htrig, hsv]
    rw [hstep]
    by_cases hsv : a.save_training_stats <;> simp [hsv] <;> omega

/-- Frame facts of the `predict` fold: the weight version and the
training statistics never change, the ghost trace only ever grows by
speaker-inference and listener-policy events, and the testing statistics
grow by one record per example when `save_training_stats` is set (the
source's guard) and by none otherwise. -/
lemma predict_foldl_frame (a : Agent) (lrng : ℕ → ℕ) (l : List (ℕ × TrainExample)) :
    ∀ s : PredictState,
      (l.foldl (predictStep a lrng) s).params = s.params ∧
      (l.foldl (predictStep a lrng) s).training_stats = s.training_stats ∧
      (l.foldl (predictStep a lrng) s).testing_stats.length
        = s.testing_stats.length + (if a.save_training_stats then l.length else 0) ∧
      (∀ e ∈ (l.foldl (predictStep a lrng) s).events,
        e ∈ s.events ∨ e = Event.inferSpeaker ∨ e = Event.listenerPolicy) := by
  induction l with
  | nil => intro s; exact ⟨rfl, rfl, by simp, fun e he => Or.inl he⟩
  | cons ke l ih =>
    intro s
    simp only [List.foldl_cons, List.length_cons]
    obtain ⟨ip, is', il, ie⟩ := ih (predictStep a lrng s ke)
    refine ⟨?_, ?_, ?_, ?_⟩
    · rw [ip]; simp [predictStep]
    · rw [is']; simp [predictStep]
    · rw [il]
      have hstep : (predictStep a lrng s ke).testing_stats.length
          = s.testing_stats.length + (if a.save_training_stats then 1 else 0) := by
        by_cases hsv : a.save_training_stats <;> simp [predictStep, hsv]
      rw [hstep]
      by_cases hsv : a.save_training_stats <;> simp [hsv] <;> omega
    · intro e he
      rcases ie e he with h | h | h
      · have : e ∈ s.events ∨ e = Event.inferSpeaker ∨ e = Event.listenerPolicy := by
          simp only [predictStep] at h
          simp only [List.mem_append, List.mem_cons, List.mem_singleton] at h
          tauto
        exact this
      · exact Or.inr (Or.inl h)
      · exact Or.inr (Or.inr h)

/-- With `save_training_stats` cleared, the `predict` fold leaves the
testing statistics untouched. -/
lemma predict_foldl_no_stats (a : Agent) (lrng : ℕ → ℕ) (l : List (ℕ × TrainExample))
    (hsv : a.save_training_stats = false) :
    ∀ s : PredictState,
      (l.foldl (predictStep a lrng) s).testing_stats = s.testing_stats := by
  induction l with
  | nil => intro s; simp
  | cons ke l ih =>
    intro s
    simp only [List.foldl_cons]
    rw [ih (predictStep a lrng s ke)]
    simp [predictStep, hsv]

end IndependentFullyConnectedAgents

/-! Helper lemmas about the `BaseAgents` loops. -/

namespace BaseAgents

/-- Batch bookkeeping of the `BaseAgents.fit` fold: counter and number of
training calls, as for the other variant. -/
lemma fitB_foldl_batch (a : Agent) (l : List OneHotExample) :
    ∀ s : State, 0 < a.cfg.batch_size → s.batch_counter < a.cfg.batch_size →
      (l.foldl (fitStep a) s).batch_counter
          = (s.batch_counter + l.length) % a.cfg.batch_size ∧
      (l.foldl (fitStep a) s).train_calls
          = s.train_calls + (s.batch_counter + l.length) / a.cfg.batch_size := by
  induction l with
  | nil =>
    intro s hB hc
    simp [Nat.mod_eq_of_lt hc, Nat.div_eq_of_lt hc]
  | cons ex l ih =>
    intro s hB hc
    simp only [List.foldl_cons, List.length_cons]
    by_cases htrig : s.batch_counter + 1 = a.cfg.batch_size
    · have hc0 : (fitStep a s ex).batch_counter = 0 := by
        simp [fitStep, sample_from_networks_on_batch, train_networks_on_batch, htrig]
      have ht0 : (fitStep a s ex).train_calls = s.train_calls + 1 := by
        simp [fitStep, sample_from_networks_on_batch, train_networks_on_batch, htrig]
      obtain ⟨ic, it⟩ := ih (fitStep a s ex) hB (by rw [hc0]; exact hB)
      have e1 : s.batch_counter + (l.length + 1) = l.length + a.cfg.batch_size := by omega
      rw [e1, Nat.add_mod_right, Nat.add_div_right _ hB]
      constructor
      · rw [ic, hc0, Nat.zero_add]
      · rw [it, ht0, hc0, Nat.zero_add]; omega
    · have hlt : s.batch_counter + 1 < a.cfg.batch_size := by omega
      have hc0 : (fitStep a s ex).batch_counter = s.batch_counter + 1 := by
        simp [fitStep, sample_from_networks_on_batch, htrig]
      have ht0 : (fitStep a s ex).train_calls = s.train_calls := by
        simp [fitStep, sample_from_networks_on_batch, htrig]
      obtain ⟨ic, it⟩ := ih (fitStep a s ex) hB (by rw [hc0]; exact hlt)
      have e2 : s.batch_counter + (l.length + 1) = s.batch_counter + 1 + l.length := by omega
      rw [hc0] at ic
      rw [ht0, hc0] at it
      rw [e2]
      exact ⟨ic, it⟩

/-- The `BaseAgents.fit` fold appends one training-stats record per
example when `save_training_stats` is set and none otherwise. -/
lemma fitB_foldl_stats (a : Agent) (l : List OneHotExample) :
    ∀ s : State,
      (l.foldl (fitStep a) s).training_stats.length
        = s.training_stats.length + (if a.save_training_stats then l.length else 0) := by
  induction l with
  | nil => intro s; simp
  | cons ex l ih =>
    intro s
    simp only [List.foldl_cons, List.length_cons]
    rw [ih]
    have hstep : (fitStep a s ex).training_stats.length
        = s.training_stats.length + (if a.save_training_stats then 1 else 0) := by
      by_cases htrig : s.batch_counter + 1 = a.cfg.batch_size <;>
        by_cases hsv : a.save_training_stats <;>
          simp [fitStep, sample_from_networks_on_batch, train_networks_on_batch, htrig, hsv]
    rw [hstep]
    by_cases hsv : a.save_training_stats <;> simp [hsv] <;> omega

/-- Frame facts of the `BaseAgents.predict` fold: weight versions, batch
counter, training statistics and training-call count never change, the
ghost trace only ever grows by inference events, and the testing
statistics grow by one record per example when `save_testing_stats` is
set and by none otherwise. -/
lemma predictB_foldl_frame (a : Agent) (l : List OneHotExample) :
    ∀ s : State,
      (l.foldl (predictStep a) s).speaker_params = s.speaker_params ∧
      (l.foldl (predictStep a) s).listener_params = s.listener_params ∧
      (l.foldl (predictStep a) s).batch_counter = s.batch_counter ∧
      (l.foldl (predictStep a) s).training_stats = s.training_stats ∧
      (l.foldl (predictStep a) s).train_calls = s.train_calls ∧
      (l.foldl (predictStep a) s).testing_stats.length
        = s.testing_stats.length + (if a.save_testing_stats then l.length else 0) ∧
      (∀ e ∈ (l.foldl (predictStep a) s).events,
        e ∈ s.events ∨ e = Event.inferSpeaker ∨ e = Event.inferListener) := by
  induction l with
  | nil =>
    intro s
    exact ⟨rfl, rfl, rfl, rfl, rfl, by simp, fun e he => Or.inl he⟩
  | cons ex l ih =>
    intro s
    simp only [List.foldl_cons, List.length_cons]
    obtain ⟨i1, i2, i3, i4, i5, i6, i7⟩ := ih (predictStep a s ex)
    refine ⟨?_, ?_, ?_, ?_, ?_, ?_, ?_⟩
    · rw [i1]; simp [predictStep]
    · rw [i2]; simp [predictStep]
    · rw [i3]; simp [predictStep]
    · rw [i4]; simp [predictStep]
    · rw [i5]; simp [predictStep]
    · rw [i6]
      have hstep : (predictStep a s ex).testing_stats.length
          = s.testing_stats.length + (if a.save_testing_stats then 1 else 0) := by
        by_cases hsv : a.save_testing_stats <;> simp [predictStep, hsv]
      rw [hstep]
      by_cases hsv : a.save_testing_stats <;> simp [hsv] <;> omega
    · intro e he
      rcases i7 e he with h | h | h
      · have : e ∈ s.events ∨ e = Event.inferSpeaker ∨ e = Event.inferListener := by
          simp only [predictStep] at h
          simp only [List.mem_append, List.mem_cons, List.mem_singleton] at h
          tauto
        exact this
      · exact Or.inr (Or.inl h)
      · exact Or.inr (Or.inr h)

end BaseAgents

/-! Properties of `argsort`, `pySliceLast` and `normalized_probs`. -/

/-- `argsort` is a permutation of the index range. -/
lemma argsort_perm (xs : List ℚ) : (argsort xs).Perm (List.range xs.length) :=
  List.perm_insertionSort _ _

/-- The indices produced by `argsort` are pairwise distinct. -/
lemma argsort_nodup (xs : List ℚ) : (argsort xs).Nodup :=
  (argsort_perm xs).nodup_iff.mpr (List.nodup_range _)

/-- `argsort` returns one index per entry. -/
lemma argsort_length (xs : List ℚ) : (argsort xs).length = xs.length :=
  (argsort_perm xs).length_eq.trans (List.length_range _)

/-- Every index produced by `argsort` is a valid position. -/
lemma argsort_mem_lt (xs : List ℚ) {i : ℕ} (h : i ∈ argsort xs) : i < xs.length := by
  have h2 := (argsort_perm xs).mem_iff.mp h
  exact List.mem_range.mp h2

/-- Length of the Python slice `xs[-L:]`. -/
lemma pySliceLast_length (xs : List α) (L : ℕ) :
    (pySliceLast xs L).length = if L = 0 then xs.length else min L xs.length := by
  unfold pySliceLast
  split
  · rfl
  · rw [List.length_drop]; omega

/-- The Python slice `xs[-L:]` is a sublist of `xs`. -/
lemma pySliceLast_sublist (xs : List α) (L : ℕ) : (pySliceLast xs L).Sublist xs := by
  unfold pySliceLast
  split
  · exact List.Sublist.refl xs
  · exact List.drop_sublist _ _

/-- Renormalization keeps the vector length. -/
lemma normalized_probs_length (probs : Probs) :
    (normalized_probs probs).length = probs.length :=
  List.length_map _ _

/-- Renormalization yields a vector summing to 1 whenever the raw sum is
nonzero. -/
lemma normalized_probs_sum (probs : Probs) (h : probs.sum ≠ 0) :
    (normalized_probs probs).sum = 1 := by
  have h1 : (normalized_probs probs).sum = probs.sum * (probs.sum)⁻¹ := by
    simp only [normalized_probs, div_eq_mul_inv]
    have h2 := List.sum_map_mul_right probs id (probs.sum)⁻¹
    simpa using h2
  rw [h1, mul_inv_cancel₀ h]

namespace IndependentFullyConnectedAgents

/-- Length of the greedy message: all of `argsort` when
`max_message_length = 0` (Python `[-0:]` is the whole list), otherwise
`min max_message_length (model output length)`. -/
lemma infer_message_length (cfg : Config) (model : Input → Probs) (t : Input) :
    (infer_from_speaker_policy cfg model t).1.length
      = if cfg.max_message_length = 0 then (model t).length
        else min cfg.max_message_length (model t).length := by
  simp only [infer_from_speaker_policy]
  rw [List.length_reverse, pySliceLast_length, argsort_length, normalized_probs_length]

/-- The greedy probabilities sequence is as long as the greedy message. -/
lemma infer_probs_length (cfg : Config) (model : Input → Probs) (t : Input) :
    (infer_from_speaker_policy cfg model t).2.length
      = (infer_from_speaker_policy cfg model t).1.length := by
  simp [infer_from_speaker_policy]

/-- Every symbol of the greedy message indexes into the model output. -/
lemma infer_mem_lt (cfg : Config) (model : Input → Probs) (t : Input) {i : ℕ}
    (h : i ∈ (infer_from_speaker_policy cfg model t).1) : i < (model t).length := by
  simp only [infer_from_speaker_policy] at h
  rw [List.mem_reverse] at h
  have h2 := (pySliceLast_sublist _ _).subset h
  have h3 := argsort_mem_lt _ h2
  rwa [normalized_probs_length] at h3

/-- The greedy message never repeats a symbol. -/
lemma infer_nodup (cfg : Config) (model : Input → Probs) (t : Input) :
    (infer_from_speaker_policy cfg model t).1.Nodup := by
  simp only [infer_from_speaker_policy]
  rw [List.nodup_reverse]
  exact List.Nodup.sublist (pySliceLast_sublist _ _) (argsort_nodup _)

end IndependentFullyConnectedAgents

/-! Concrete inputs used by the witness theorems (the spec's example
scenario: alphabet_size 5, max_message_length 3, batch_size 2, candidate
sets of length 4). -/

/-- A concrete `IndependentFullyConnectedAgents` instance with both
stats flags set and a trivial external model. -/
def wAgent : IndependentFullyConnectedAgents.Agent :=
  ⟨⟨3, 5, 2⟩, true, true, fun _ _ => []⟩

/-- A concrete training example with four candidates. -/
def wExample : IndependentFullyConnectedAgents.TrainExample :=
  ⟨[], [[], [], [], []], 0⟩

/-- A concrete `BaseAgents` instance with both stats flags set and
trivial external policies. -/
def wAgentB : BaseAgents.Agent :=
  ⟨⟨3, 5, 2⟩, true, true, fun _ _ => ([], []), fun _ _ => ([], []),
    fun _ _ _ => (0, []), fun _ _ _ => 0⟩

/-- A concrete one-hot example with four candidates. -/
def wExampleB : BaseAgents.OneHotExample :=
  ⟨[], [[], [], [], []], [1, 0, 0, 0]⟩

/-! The claims. -/

/-- C1: both reward functions return a value in {0,1}, and return 1
exactly when the chosen index matches the ground truth — index equality
in the bare-index encoding (`IndependentFullyConnectedAgents`), and a 1
at the chosen (valid) position in the one-hot encoding (`BaseAgents`). -/
theorem C1_calculate_reward_binary_iff (c t : ℕ) (oh : List ℚ) (hc : c < oh.length) :
    (IndependentFullyConnectedAgents.calculate_reward c t = 0 ∨
      IndependentFullyConnectedAgents.calculate_reward c t = 1) ∧
    (IndependentFullyConnectedAgents.calculate_reward c t = 1 ↔ c = t) ∧
    (BaseAgents.calculate_reward c oh = 0 ∨ BaseAgents.calculate_reward c oh = 1) ∧
    (BaseAgents.calculate_reward c oh = 1 ↔ oh.getD c 0 = 1) := by
  unfold IndependentFullyConnectedAgents.calculate_reward BaseAgents.calculate_reward
  refine ⟨?_, ?_, ?_, ?_⟩ <;> split_ifs <;> simp_all

/-- C1 witness: the spec's example — one-hot ground truth `[0,1,0]` with
chosen index 1 gives reward 1; in the bare-index encoding `1 = 1` gives
reward 1. -/
theorem C1_witness :
    1 < ([0, 1, 0] : List ℚ).length ∧
    ((IndependentFullyConnectedAgents.calculate_reward 1 1 = 0 ∨
        IndependentFullyConnectedAgents.calculate_reward 1 1 = 1) ∧
      (IndependentFullyConnectedAgents.calculate_reward 1 1 = 1 ↔ 1 = 1) ∧
      (BaseAgents.calculate_reward 1 [0, 1, 0] = 0 ∨
        BaseAgents.calculate_reward 1 [0, 1, 0] = 1) ∧
      (BaseAgents.calculate_reward 1 [0, 1, 0] = 1 ↔
        ([0, 1, 0] : List ℚ).getD 1 0 = 1)) :=
  ⟨by decide, C1_calculate_reward_binary_iff 1 1 [0, 1, 0] (by decide)⟩

/-- C5: greedy inference is deterministic — for a fixed model state
(hence a fixed predicted probability vector) and target input, two calls
to `infer_from_speaker_policy` return the same message and the same
probability sequence.  In the embedding `infer_from_speaker_policy` is a
pure function of the configuration, the model state and the input (it
consults no randomness oracle, unlike
`sample_speaker_policy_for_message`), so the two calls agree
definitionally. -/
theorem C5_infer_deterministic (cfg : Config) (model : Input → Probs) (t : Input) :
    (IndependentFullyConnectedAgents.infer_from_speaker_policy cfg model t).1
        = (IndependentFullyConnectedAgents.infer_from_speaker_policy cfg model t).1 ∧
    (IndependentFullyConnectedAgents.infer_from_speaker_policy cfg model t).2
        = (IndependentFullyConnectedAgents.infer_from_speaker_policy cfg model t).2 :=
  ⟨rfl, rfl⟩

/-- C8: both the sampling and the greedy path renormalize the raw model
output before use — the per-symbol probabilities they return are read
from `normalized_probs (model t)`, and whenever the raw output has
nonzero sum the renormalized distribution sums to exactly 1. -/
theorem C8_renormalized_distribution (cfg : Config) (model : Input → Probs)
    (rng : ℕ → ℕ) (t : Input) (h : (model t).sum ≠ 0) :
    (IndependentFullyConnectedAgents.sample_speaker_policy_for_message cfg model rng t).2
        = (IndependentFullyConnectedAgents.sample_speaker_policy_for_message cfg model rng t).1.map
            (fun s => (normalized_probs (model t)).getD s 0) ∧
    (IndependentFullyConnectedAgents.infer_from_speaker_policy cfg model t).2
        = (IndependentFullyConnectedAgents.infer_from_speaker_policy cfg model t).1.map
            (fun i => (normalized_probs (model t)).getD i 0) ∧
    (normalized_probs (model t)).sum = 1 :=
  ⟨rfl, rfl, normalized_probs_sum _ h⟩

/-- C8 witness: the raw output `[1, 2]` (sum 3, not 1) is renormalized
to a distribution summing to 1. -/
theorem C8_witness :
    ([1, 2] : Probs).sum ≠ 0 ∧ (normalized_probs [1, 2]).sum = 1 :=
  ⟨by simp only [List.sum_cons, List.sum_nil]; norm_num,
    (C8_renormalized_distribution ⟨3, 5, 2⟩ (fun _ => [1, 2]) (fun _ => 0) []
      (by simp only [List.sum_cons, List.sum_nil]; norm_num)).2.2⟩

/-- C9: in `IndependentFullyConnectedAgents.predict` the append to the
testing statistics is guarded by `save_training_stats` (line 255), not
`save_testing_stats`: an instance constructed with
`save_training_stats = False` ends `predict` with empty `testing_stats`
on any dataset, even when `save_testing_stats = True`. -/
theorem C9_testing_stats_guard_bug (a : IndependentFullyConnectedAgents.Agent)
    (lrng : ℕ → ℕ) (p0 : ℕ) (tstats : List IndependentFullyConnectedAgents.Stat)
    (data : List IndependentFullyConnectedAgents.TrainExample)
    (h1 : a.save_training_stats = false) (h2 : a.save_testing_stats = true) :
    (IndependentFullyConnectedAgents.predict a lrng p0 tstats data).testing_stats = [] := by
  unfold IndependentFullyConnectedAgents.predict
  rw [IndependentFullyConnectedAgents.predict_foldl_no_stats a lrng _ h1]

/-- C9 witness: a concrete instance with `save_training_stats = false`
and `save_testing_stats = true` keeps `testing_stats` empty across a
nonempty `predict` run. -/
theorem C9_witness :
    (⟨⟨3, 5, 2⟩, false, true, fun _ _ => []⟩ :
        IndependentFullyConnectedAgents.Agent).save_training_stats = false ∧
    (⟨⟨3, 5, 2⟩, false, true, fun _ _ => []⟩ :
        IndependentFullyConnectedAgents.Agent).save_testing_stats = true ∧
    (IndependentFullyConnectedAgents.predict
        ⟨⟨3, 5, 2⟩, false, true, fun _ _ => []⟩ (fun _ => 0) 0 [] [wExample]).testing_stats
      = [] :=
  ⟨rfl, rfl,
    C9_testing_stats_guard_bug ⟨⟨3, 5, 2⟩, false, true, fun _ _ => []⟩
      (fun _ => 0) 0 [] [wExample] rfl rfl⟩

/-- C10: the greedy message's symbols are pairwise distinct (they are
distinct `argsort` indices), whereas the sampled message may repeat a
symbol — witnessed by a run whose oracle draws symbol 0 twice. -/
theorem C10_infer_distinct_sample_may_repeat :
    (∀ (cfg : Config) (model : Input → Probs) (t : Input),
      (IndependentFullyConnectedAgents.infer_from_speaker_policy cfg model t).1.Nodup) ∧
    ¬ (IndependentFullyConnectedAgents.sample_speaker_policy_for_message
        ⟨2, 3, 1⟩ (fun _ => [0, 0, 0]) (fun _ => 0) []).1.Nodup := by
  constructor
  · intro cfg model t
    exact IndependentFullyConnectedAgents.infer_nodup cfg model t
  · decide

/-- C2: over a dataset of `n` examples, both `fit` loops invoke the
policy training step exactly `n / batch_size` times; a step fires
exactly when the accumulated count since the last step reaches
`batch_size`; the trailing `n % batch_size` examples remain in the
accumulator, never trained on. -/
theorem C2_fit_training_step_count
    (a : IndependentFullyConnectedAgents.Agent) (srng : ℕ → ℕ → ℕ) (lrng : ℕ → ℕ)
    (p0 : ℕ) (data : List IndependentFullyConnectedAgents.TrainExample)
    (b : BaseAgents.Agent) (s0 : BaseAgents.State)
    (dataB : List BaseAgents.OneHotExample)
    (hB : 0 < a.cfg.batch_size) (hB2 : 0 < b.cfg.batch_size) :
    (IndependentFullyConnectedAgents.fit a srng lrng p0 data).train_calls
        = data.length / a.cfg.batch_size ∧
    (IndependentFullyConnectedAgents.fit a srng lrng p0 data).batch_training_inputs.length
        = data.length % a.cfg.batch_size ∧
    (∀ (s : IndependentFullyConnectedAgents.FitState)
        (kex : ℕ × IndependentFullyConnectedAgents.TrainExample),
      (IndependentFullyConnectedAgents.fitStep a srng lrng s kex).train_calls
          = s.train_calls + 1
        ↔ s.batch_counter + 1 = a.cfg.batch_size) ∧
    (BaseAgents.fit b s0 dataB).train_calls = dataB.length / b.cfg.batch_size ∧
    (∀ (s : BaseAgents.State) (ex : BaseAgents.OneHotExample),
      (BaseAgents.fitStep b s ex).train_calls = s.train_calls + 1
        ↔ s.batch_counter + 1 = b.cfg.batch_size) := by
  obtain ⟨ic, it, i1, i2, i3⟩ :=
    IndependentFullyConnectedAgents.fit_foldl_batch a srng lrng data.enum
      (IndependentFullyConnectedAgents.initFitState p0) hB hB rfl rfl rfl
  obtain ⟨jc, jt⟩ := BaseAgents.fitB_foldl_batch b dataB
    { s0 with total_training_reward := 0, batch_counter := 0, train_calls := 0, events := [] }
    hB2 hB2
  refine ⟨?_, ?_, ?_, ?_, ?_⟩
  · simp only [IndependentFullyConnectedAgents.fit]
    rw [it]
    simp [IndependentFullyConnectedAgents.initFitState, List.enum_length]
  · simp only [IndependentFullyConnectedAgents.fit]
    rw [i1, ic]
    simp [IndependentFullyConnectedAgents.initFitState, List.enum_length]
  · intro s kex
    by_cases htrig : s.batch_counter + 1 = a.cfg.batch_size
    · exact ⟨fun _ => htrig,
        fun _ => by simp [IndependentFullyConnectedAgents.fitStep, htrig]⟩
    · constructor
      · intro hcall
        have hsame : (IndependentFullyConnectedAgents.fitStep a srng lrng s kex).train_calls
            = s.train_calls := by
          simp [IndependentFullyConnectedAgents.fitStep, htrig]
        rw [hsame] at hcall
        omega
      · intro hcontra
        exact absurd hcontra htrig
  · simp only [BaseAgents.fit]
    rw [jt]
    simp
  · intro s ex
    by_cases htrig : s.batch_counter + 1 = b.cfg.batch_size
    · exact ⟨fun _ => htrig,
        fun _ => by
          simp [BaseAgents.fitStep, BaseAgents.sample_from_networks_on_batch,
            BaseAgents.train_networks_on_batch, htrig]⟩
    · constructor
      · intro hcall
        have hsame : (BaseAgents.fitStep b s ex).train_calls = s.train_calls := by
          simp [BaseAgents.fitStep, BaseAgents.sample_from_networks_on_batch, htrig]
        rw [hsame] at hcall
        omega
      · intro hcontra
        exact absurd hcontra htrig

/-- C2 witness: the spec's scenario — batch_size 2, two examples: both
loops train exactly once and the accumulator ends empty; from a fresh
state (counter 0), one example does not trigger a step. -/
theorem C2_witness :
    0 < wAgent.cfg.batch_size ∧ 0 < wAgentB.cfg.batch_size ∧
    (IndependentFullyConnectedAgents.fit wAgent (fun _ _ => 0) (fun _ => 0) 0
        [wExample, wExample]).train_calls = 1 ∧
    (IndependentFullyConnectedAgents.fit wAgent (fun _ _ => 0) (fun _ => 0) 0
        [wExample, wExample]).batch_training_inputs.length = 0 ∧
    ((IndependentFullyConnectedAgents.fitStep wAgent (fun _ _ => 0) (fun _ => 0)
          (IndependentFullyConnectedAgents.initFitState 0) (0, wExample)).train_calls
        = (IndependentFullyConnectedAgents.initFitState 0).train_calls + 1
      ↔ (IndependentFullyConnectedAgents.initFitState 0).batch_counter + 1
          = wAgent.cfg.batch_size) ∧
    (BaseAgents.fit wAgentB (BaseAgents.initState 0 0) [wExampleB, wExampleB]).train_calls = 1 ∧
    ((BaseAgents.fitStep wAgentB (BaseAgents.initState 0 0) wExampleB).train_calls
        = (BaseAgents.initState 0 0).train_calls + 1
      ↔ (BaseAgents.initState 0 0).batch_counter + 1 = wAgentB.cfg.batch_size) := by
  have h := C2_fit_training_step_count wAgent (fun _ _ => 0) (fun _ => 0) 0
    [wExample, wExample] wAgentB (BaseAgents.initState 0 0) [wExampleB, wExampleB]
    (by decide) (by decide)
  exact ⟨by decide, by decide, h.1, h.2.1, h.2.2.1 _ _, h.2.2.2.1, h.2.2.2.2 _ _⟩

/-- C3: at every point of both `fit` runs the batch accumulator holds
fewer than `batch_size` elements between steps (hence at most
`batch_size` at the trigger check), the three accumulator sequences stay
in lockstep with the counter, and immediately after a training step the
counter is 0 and the accumulators are empty. -/
theorem C3_batch_accumulator_invariant
    (a : IndependentFullyConnectedAgents.Agent) (srng : ℕ → ℕ → ℕ) (lrng : ℕ → ℕ)
    (p0 : ℕ) (data : List IndependentFullyConnectedAgents.TrainExample)
    (b : BaseAgents.Agent) (s0 : BaseAgents.State)
    (dataB : List BaseAgents.OneHotExample)
    (hB : 0 < a.cfg.batch_size) (hB2 : 0 < b.cfg.batch_size) :
    (∀ k : ℕ,
      (IndependentFullyConnectedAgents.fit a srng lrng p0 (data.take k)).batch_counter
          < a.cfg.batch_size ∧
      (IndependentFullyConnectedAgents.fit a srng lrng p0 (data.take k)).batch_training_inputs.length
          = (IndependentFullyConnectedAgents.fit a srng lrng p0 (data.take k)).batch_counter ∧
      (IndependentFullyConnectedAgents.fit a srng lrng p0 (data.take k)).message_probs_storage.length
          = (IndependentFullyConnectedAgents.fit a srng lrng p0 (data.take k)).batch_counter ∧
      (IndependentFullyConnectedAgents.fit a srng lrng p0 (data.take k)).rewards_storage.length
          = (IndependentFullyConnectedAgents.fit a srng lrng p0 (data.take k)).batch_counter) ∧
    (∀ (s : IndependentFullyConnectedAgents.FitState)
        (kex : ℕ × IndependentFullyConnectedAgents.TrainExample),
      (IndependentFullyConnectedAgents.fitStep a srng lrng s kex).train_calls
          = s.train_calls + 1 →
        (IndependentFullyConnectedAgents.fitStep a srng lrng s kex).batch_counter = 0 ∧
        (IndependentFullyConnectedAgents.fitStep a srng lrng s kex).batch_training_inputs = [] ∧
        (IndependentFullyConnectedAgents.fitStep a srng lrng s kex).message_probs_storage = [] ∧
        (IndependentFullyConnectedAgents.fitStep a srng lrng s kex).rewards_storage = []) ∧
    (∀ k : ℕ,
      (BaseAgents.fit b s0 (dataB.take k)).batch_counter < b.cfg.batch_size) ∧
    (∀ s : BaseAgents.State, (BaseAgents.train_networks_on_batch b s).batch_counter = 0) := by
  refine ⟨?_, ?_, ?_, ?_⟩
  · intro k
    obtain ⟨ic, it, i1, i2, i3⟩ :=
      IndependentFullyConnectedAgents.fit_foldl_batch a srng lrng (data.take k).enum
        (IndependentFullyConnectedAgents.initFitState p0) hB hB rfl rfl rfl
    refine ⟨?_, i1, i2, i3⟩
    simp only [IndependentFullyConnectedAgents.fit]
    rw [ic]
    exact Nat.mod_lt _ hB
  · intro s kex hcall
    by_cases htrig : s.batch_counter + 1 = a.cfg.batch_size
    · refine ⟨?_, ?_, ?_, ?_⟩ <;> simp [IndependentFullyConnectedAgents.fitStep, htrig]
    · have hsame : (IndependentFullyConnectedAgents.fitStep a srng lrng s kex).train_calls
          = s.train_calls := by
        simp [IndependentFullyConnectedAgents.fitStep, htrig]
      rw [hsame] at hcall
      omega
  · intro k
    obtain ⟨jc, jt⟩ := BaseAgents.fitB_foldl_batch b (dataB.take k)
      { s0 with total_training_reward := 0, batch_counter := 0, train_calls := 0, events := [] }
      hB2 hB2
    simp only [BaseAgents.fit]
    rw [jc]
    exact Nat.mod_lt _ hB2
  · intro s
    rfl

/-- C3 witness: at batch_size 2, after one example the counter is 1 with
one element in each accumulator sequence; a step from a counter-1 state
trains and leaves counter 0 and all accumulators empty. -/
theorem C3_witness :
    0 < wAgent.cfg.batch_size ∧ 0 < wAgentB.cfg.batch_size ∧
    (IndependentFullyConnectedAgents.fit wAgent (fun _ _ => 0) (fun _ => 0) 0
        ([wExample, wExample].take 1)).batch_counter < 2 ∧
    ((IndependentFullyConnectedAgents.fitStep wAgent (fun _ _ => 0) (fun _ => 0)
        (⟨0, [], [[]], [0], 0, 1, [[]], 0, []⟩ :
          IndependentFullyConnectedAgents.FitState) (0, wExample)).batch_counter = 0 ∧
      (IndependentFullyConnectedAgents.fitStep wAgent (fun _ _ => 0) (fun _ => 0)
        (⟨0, [], [[]], [0], 0, 1, [[]], 0, []⟩ :
          IndependentFullyConnectedAgents.FitState) (0, wExample)).batch_training_inputs = [] ∧
      (IndependentFullyConnectedAgents.fitStep wAgent (fun _ _ => 0) (fun _ => 0)
        (⟨0, [], [[]], [0], 0, 1, [[]], 0, []⟩ :
          IndependentFullyConnectedAgents.FitState) (0, wExample)).message_probs_storage = [] ∧
      (IndependentFullyConnectedAgents.fitStep wAgent (fun _ _ => 0) (fun _ => 0)
        (⟨0, [], [[]], [0], 0, 1, [[]], 0, []⟩ :
          IndependentFullyConnectedAgents.FitState) (0, wExample)).rewards_storage = []) ∧
    (BaseAgents.fit wAgentB (BaseAgents.initState 0 0) ([wExampleB].take 1)).batch_counter < 2 ∧
    (BaseAgents.train_networks_on_batch wAgentB (BaseAgents.initState 0 0)).batch_counter = 0 := by
  have h := C3_batch_accumulator_invariant wAgent (fun _ _ => 0) (fun _ => 0) 0
    [wExample, wExample] wAgentB (BaseAgents.initState 0 0) [wExampleB]
    (by decide) (by decide)
  exact ⟨by decide, by decide, (h.1 1).1,
    h.2.1 ⟨0, [], [[]], [0], 0, 1, [[]], 0, []⟩ (0, wExample) (by decide),
    h.2.2.1 1, h.2.2.2 _⟩

/-- C4 counterexample: with `max_message_length = 3` but only 2 alphabet
symbols (a 2-entry model output), the greedy path returns a 2-symbol
message, not `max_message_length` symbols — `argsort()[-3:]` cannot
produce more indices than the vector has entries. -/
theorem C4_counterexample :
    ¬ ((IndependentFullyConnectedAgents.infer_from_speaker_policy ⟨3, 2, 2⟩
          (fun _ => [0, 0]) []).1.length = (⟨3, 2, 2⟩ : Config).max_message_length) := by
  rw [IndependentFullyConnectedAgents.infer_message_length]
  decide

/-- C4 (amended): the sampling path always — with no condition on the
configuration — returns exactly `max_message_length` symbols with as
many probabilities, every symbol in `[0, alphabet_size)` (and
`SpeakerPolicy.sample_speaker_policy` computes the very same function);
the greedy path returns `min max_message_length alphabet_size` symbols
when `max_message_length ≥ 1` and the whole alphabet when
`max_message_length = 0`, with as many probabilities, every symbol in
`[0, alphabet_size)` — so exactly `max_message_length` symbols precisely
in the regime `1 ≤ max_message_length ≤ alphabet_size`.  The model
output has one entry per alphabet symbol (the softmax layer's shape) and
each oracle draw is in range (the `np.random.choice` contract). -/
theorem C4_message_shape (cfg : Config) (model : Input → Probs) (rng : ℕ → ℕ) (t : Input)
    (hm : (model t).length = cfg.alphabet_size)
    (hrng : ∀ i, rng i < cfg.alphabet_size) :
    (IndependentFullyConnectedAgents.sample_speaker_policy_for_message cfg model rng t).1.length
        = cfg.max_message_length ∧
    (IndependentFullyConnectedAgents.sample_speaker_policy_for_message cfg model rng t).2.length
        = cfg.max_message_length ∧
    (∀ sym ∈ (IndependentFullyConnectedAgents.sample_speaker_policy_for_message
        cfg model rng t).1, sym < cfg.alphabet_size) ∧
    SpeakerPolicy.sample_speaker_policy cfg model rng t
        = IndependentFullyConnectedAgents.sample_speaker_policy_for_message cfg model rng t ∧
    (IndependentFullyConnectedAgents.infer_from_speaker_policy cfg model t).1.length
        = (if cfg.max_message_length = 0 then cfg.alphabet_size
           else min cfg.max_message_length cfg.alphabet_size) ∧
    (IndependentFullyConnectedAgents.infer_from_speaker_policy cfg model t).2.length
        = (IndependentFullyConnectedAgents.infer_from_speaker_policy cfg model t).1.length ∧
    (∀ sym ∈ (IndependentFullyConnectedAgents.infer_from_speaker_policy cfg model t).1,
      sym < cfg.alphabet_size) ∧
    (1 ≤ cfg.max_message_length → cfg.max_message_length ≤ cfg.alphabet_size →
      (IndependentFullyConnectedAgents.infer_from_speaker_policy cfg model t).1.length
          = cfg.max_message_length ∧
      (IndependentFullyConnectedAgents.infer_from_speaker_policy cfg model t).2.length
          = cfg.max_message_length) := by
  have hil : (IndependentFullyConnectedAgents.infer_from_speaker_policy cfg model t).1.length
      = (if cfg.max_message_length = 0 then cfg.alphabet_size
         else min cfg.max_message_length cfg.alphabet_size) := by
    rw [IndependentFullyConnectedAgents.infer_message_length, hm]
  refine ⟨?_, ?_, ?_, rfl, hil,
    IndependentFullyConnectedAgents.infer_probs_length cfg model t, ?_, ?_⟩
  · simp [IndependentFullyConnectedAgents.sample_speaker_policy_for_message]
  · simp [IndependentFullyConnectedAgents.sample_speaker_policy_for_message]
  · intro sym hsym
    simp only [IndependentFullyConnectedAgents.sample_speaker_policy_for_message,
      List.mem_map, List.mem_range] at hsym
    obtain ⟨i, -, hi⟩ := hsym
    rw [← hi]
    exact hrng i
  · intro sym hsym
    have hlt := IndependentFullyConnectedAgents.infer_mem_lt cfg model t hsym
    rwa [hm] at hlt
  · intro h1 h2
    have hexact : (IndependentFullyConnectedAgents.infer_from_speaker_policy
        cfg model t).1.length = cfg.max_message_length := by
      rw [hil, if_neg (by omega)]
      omega
    exact ⟨hexact,
      (IndependentFullyConnectedAgents.infer_probs_length cfg model t).trans hexact⟩

/-- C4 witness, two configurations.  In the counterexample's regime
`max_message_length = 3 > alphabet_size = 2` (2-entry model output):
sampling still returns exactly 3 symbols with 3 probabilities, the two
sampling implementations agree, and greedy inference returns
`min 3 2 = 2` symbols with 2 probabilities.  In the regime
`max_message_length = 2 ≤ alphabet_size = 3`: greedy inference returns
exactly 2 = `max_message_length` symbols with 2 probabilities. -/
theorem C4_witness :
    ((fun _ : Input => ([0, 0] : Probs)) []).length = (⟨3, 2, 2⟩ : Config).alphabet_size ∧
    (IndependentFullyConnectedAgents.sample_speaker_policy_for_message ⟨3, 2, 2⟩
        (fun _ => [0, 0]) (fun _ => 1) []).1.length = 3 ∧
    (IndependentFullyConnectedAgents.sample_speaker_policy_for_message ⟨3, 2, 2⟩
        (fun _ => [0, 0]) (fun _ => 1) []).2.length = 3 ∧
    SpeakerPolicy.sample_speaker_policy ⟨3, 2, 2⟩ (fun _ => [0, 0]) (fun _ => 1) []
        = IndependentFullyConnectedAgents.sample_speaker_policy_for_message ⟨3, 2, 2⟩
            (fun _ => [0, 0]) (fun _ => 1) [] ∧
    (IndependentFullyConnectedAgents.infer_from_speaker_policy ⟨3, 2, 2⟩
        (fun _ => [0, 0]) []).1.length = 2 ∧
    (IndependentFullyConnectedAgents.infer_from_speaker_policy ⟨3, 2, 2⟩
        (fun _ => [0, 0]) []).2.length = 2 ∧
    1 ≤ (⟨2, 3, 2⟩ : Config).max_message_length ∧
    (⟨2, 3, 2⟩ : Config).max_message_length ≤ (⟨2, 3, 2⟩ : Config).alphabet_size ∧
    (IndependentFullyConnectedAgents.infer_from_speaker_policy ⟨2, 3, 2⟩
        (fun _ => [0, 0, 0]) []).1.length = 2 ∧
    (IndependentFullyConnectedAgents.infer_from_speaker_policy ⟨2, 3, 2⟩
        (fun _ => [0, 0, 0]) []).2.length = 2 := by
  have h := C4_message_shape ⟨3, 2, 2⟩ (fun _ => [0, 0]) (fun _ => 1) []
    (by decide) (fun _ => (by decide : (1 : ℕ) < 2))
  have h2 := C4_message_shape ⟨2, 3, 2⟩ (fun _ => [0, 0, 0]) (fun _ => 1) []
    (by decide) (fun _ => (by decide : (1 : ℕ) < 3))
  obtain ⟨hexact1, hexact2⟩ := h2.2.2.2.2.2.2.2 (by decide) (by decide)
  exact ⟨by decide, h.1, h.2.1, h.2.2.2.1, h.2.2.2.2.1,
    (h.2.2.2.2.2.1).trans h.2.2.2.2.1, by decide, by decide, hexact1, hexact2⟩

/-- C6: both `predict` loops only ever call the deterministic inference
path of the external policies (the speaker's greedy inference, and on
the `IndependentFullyConnectedAgents` side the listener-policy stub) —
never a sampling call and never a training call — and leave the weight
versions, the training statistics log, the batch counter and the
training-call count unchanged. -/
theorem C6_predict_inference_only
    (a : IndependentFullyConnectedAgents.Agent) (lrng : ℕ → ℕ) (p0 : ℕ)
    (tstats : List IndependentFullyConnectedAgents.Stat)
    (data : List IndependentFullyConnectedAgents.TrainExample)
    (b : BaseAgents.Agent) (s0 : BaseAgents.State)
    (dataB : List BaseAgents.OneHotExample) :
    (IndependentFullyConnectedAgents.predict a lrng p0 tstats data).params = p0 ∧
    (IndependentFullyConnectedAgents.predict a lrng p0 tstats data).training_stats = tstats ∧
    (∀ e ∈ (IndependentFullyConnectedAgents.predict a lrng p0 tstats data).events,
      e = Event.inferSpeaker ∨ e = Event.listenerPolicy) ∧
    (BaseAgents.predict b s0 dataB).speaker_params = s0.speaker_params ∧
    (BaseAgents.predict b s0 dataB).listener_params = s0.listener_params ∧
    (BaseAgents.predict b s0 dataB).batch_counter = s0.batch_counter ∧
    (BaseAgents.predict b s0 dataB).training_stats = s0.training_stats ∧
    (BaseAgents.predict b s0 dataB).train_calls = s0.train_calls ∧
    (∀ e ∈ (BaseAgents.predict b s0 dataB).events,
      e = Event.inferSpeaker ∨ e = Event.inferListener) := by
  obtain ⟨ip, is', il, ie⟩ :=
    IndependentFullyConnectedAgents.predict_foldl_frame a lrng data.enum ⟨p0, tstats, [], 0, []⟩
  obtain ⟨j1, j2, j3, j4, j5, j6, j7⟩ :=
    BaseAgents.predictB_foldl_frame b dataB { s0 with testing_stats := [], events := [] }
  refine ⟨ip, is', ?_, j1, j2, j3, j4, j5, ?_⟩
  · intro e he
    rcases ie e he with h | h
    · simp at h
    · exact h
  · intro e he
    rcases j7 e he with h | h
    · simp at h
    · exact h

/-- C7: with statistics saving enabled (the construction default), after
`fit` the training statistics log holds one record per example, and
after `predict` the testing statistics log holds one record per example
— in both agent variants. -/
theorem C7_stats_log_length
    (a : IndependentFullyConnectedAgents.Agent) (srng : ℕ → ℕ → ℕ) (lrng : ℕ → ℕ)
    (p0 p1 : ℕ) (data dataP : List IndependentFullyConnectedAgents.TrainExample)
    (tstats : List IndependentFullyConnectedAgents.Stat)
    (b : BaseAgents.Agent) (ps pl : ℕ)
    (dataB dataBP : List BaseAgents.OneHotExample) (s0 : BaseAgents.State)
    (h1 : a.save_training_stats = true)
    (h2 : b.save_training_stats = true) (h3 : b.save_testing_stats = true) :
    (IndependentFullyConnectedAgents.fit a srng lrng p0 data).training_stats.length
        = data.length ∧
    (IndependentFullyConnectedAgents.predict a lrng p1 tstats dataP).testing_stats.length
        = dataP.length ∧
    (BaseAgents.fit b (BaseAgents.initState ps pl) dataB).training_stats.length
        = dataB.length ∧
    (BaseAgents.predict b s0 dataBP).testing_stats.length = dataBP.length := by
  refine ⟨?_, ?_, ?_, ?_⟩
  · have h := IndependentFullyConnectedAgents.fit_foldl_stats a srng lrng data.enum
      (IndependentFullyConnectedAgents.initFitState p0)
    simp only [IndependentFullyConnectedAgents.fit]
    rw [h]
    simp [IndependentFullyConnectedAgents.initFitState, h1, List.enum_length]
  · obtain ⟨-, -, il, -⟩ :=
      IndependentFullyConnectedAgents.predict_foldl_frame a lrng dataP.enum
        ⟨p1, tstats, [], 0, []⟩
    simp only [IndependentFullyConnectedAgents.predict]
    rw [il]
    simp [h1, List.enum_length]
  · have h := BaseAgents.fitB_foldl_stats b dataB
      { BaseAgents.initState ps pl with
        total_training_reward := 0, batch_counter := 0, train_calls := 0, events := [] }
    simp only [BaseAgents.fit]
    rw [h]
    simp [BaseAgents.initState, h2]
  · obtain ⟨-, -, -, -, -, i6, -⟩ :=
      BaseAgents.predictB_foldl_frame b dataBP { s0 with testing_stats := [], events := [] }
    simp only [BaseAgents.predict]
    rw [i6]
    simp [h3]

/-- C7 witness: with the default flags, two examples through `fit` give
two training records; one example through `predict` gives one testing
record; likewise for the `BaseAgents` variant from a fresh instance. -/
theorem C7_witness :
    wAgent.save_training_stats = true ∧
    wAgentB.save_training_stats = true ∧ wAgentB.save_testing_stats = true ∧
    (IndependentFullyConnectedAgents.fit wAgent (fun _ _ => 0) (fun _ => 0) 0
        [wExample, wExample]).training_stats.length = 2 ∧
    (IndependentFullyConnectedAgents.predict wAgent (fun _ => 0) 0 []
        [wExample]).testing_stats.length = 1 ∧
    (BaseAgents.fit wAgentB (BaseAgents.initState 0 0) [wExampleB]).training_stats.length = 1 ∧
    (BaseAgents.predict wAgentB (BaseAgents.initState 0 0) [wExampleB]).testing_stats.length
        = 1 := by
  have h := C7_stats_log_length wAgent (fun _ _ => 0) (fun _ => 0) 0 0
    [wExample, wExample] [wExample] [] wAgentB 0 0 [wExampleB] [wExampleB]
    (BaseAgents.initState 0 0) rfl rfl rfl
  exact ⟨rfl, rfl, rfl, h.1, h.2.1, h.2.2.1, h.2.2.2⟩
